import Mathlib

/-!
Verification model of the tcp-epoll-server repository.

The repository contains two variants of the server:
* `src/include/tcp/server.h` (used by `src/app/main.cpp` with
  `src/app/handler.h` and `src/include/tcp/thread_pool.h`): the event loop
  itself accepts connections, sets receive/send timeouts on the accepted
  socket, registers it in the epoll instance, performs the `read` syscall for
  connection events, and dispatches handler work to the thread pool.
* `src/server.h` (used by `src/main.cpp` with `src/echo_handler.h`): the event
  loop only enqueues tasks; accept, non-blocking setup, epoll registration,
  read, write and handler invocation all happen inside worker tasks.

Namespace `Tcp` models the first variant, namespace `TcpV0` the second, and
namespace `Pool` models `src/include/tcp/thread_pool.h`.  Syscall outcomes
are supplied through explicit oracle records; each modelled function returns
the list of observable actions (syscalls, handler callbacks) it performs, in
program order, together with any tasks it enqueues or the error it throws.
-/

namespace Tcp

/-- Peer address as produced by `getpeername` / `accept` (`sockaddr_in`). -/
structure SockAddrIn where
  addr : Nat
  port : Nat
deriving DecidableEq

/-- Error kinds of `tcp::Error::Kind`; union of the enumerations in
`src/include/tcp/server.h`, `src/include/tcp/utils.h` and `src/server.h`. -/
inductive ErrorKind
  | socketCreation
  | socketBinding
  | socketListening
  | epollCreation
  | epollAdd
  | epollDelete
  | epollWait
  | accept
  | getAddress
  | read
  | write
  | close
deriving DecidableEq

/-- Observable actions performed by the server: syscalls on descriptors and
handler callbacks.  `sysAccept b` records an `accept` call that succeeded
(`b = true`) or returned `-1`. -/
inductive Event
  | sysAccept (ok : Bool)
  | sysSetRcvTimeout (fd : Nat)
  | sysSetSndTimeout (fd : Nat)
  | sysSetNonBlocking (fd : Nat)
  | sysEpollAdd (fd : Nat)
  | sysEpollDel (fd : Nat)
  | sysRead (fd : Nat)
  | sysWrite (fd : Nat) (len : Nat)
  | sysClose (fd : Nat)
  | getAddr (fd : Nat)
  | callOnNew (a : SockAddrIn)
  | callOnRead (a : SockAddrIn) (inBuf : List Nat)
  | callOnClose (a : SockAddrIn)
  | callOnError (a : SockAddrIn) (k : ErrorKind)
deriving DecidableEq

/-- Pure description of a connection handler: the response bytes and
keep-alive flag it returns from `OnNew` and `OnRead`. -/
structure HandlerSpec where
  onNewOut : SockAddrIn → List Nat
  onNewKeep : SockAddrIn → Bool
  onReadOut : SockAddrIn → List Nat → List Nat
  onReadKeep : SockAddrIn → List Nat → Bool

/-- Result of the `read` syscall on a connection socket: `-1`, `0` (peer
closed), or `n > 0` bytes `bs` (with `n = bs.length`). -/
inductive ReadRes
  | fail
  | eof
  | bytes (bs : List Nat)
deriving DecidableEq

/-- Outcomes of the syscalls performed while the event loop processes one
epoll event (`src/include/tcp/server.h`, `Server::Run`). -/
structure EventOracle where
  acceptRes : Option Nat
  rcvOk : Bool
  sndOk : Bool
  addOk : Bool
  readRes : ReadRes
  peerRes : Option SockAddrIn
deriving DecidableEq

/-- Outcomes of the syscalls performed inside a worker task
(`Server::HandleNewConnection` / `Server::HandleRead`): the `getpeername`
result and the `write` return value. -/
structure TaskOracle where
  peerRes : Option SockAddrIn
  writeRes : Int
deriving DecidableEq

/-- Tasks pushed onto the thread pool by `Server::Run`
(`src/include/tcp/server.h`): the `HandleNewConnection` closure, the
`HandleRead` closure (capturing the buffer already read by the reactor), and
the closures that only invoke `OnError` / `OnClose` with a captured address. -/
inductive TaskKind
  | newConn (fd : Nat)
  | readConn (fd : Nat) (inBuf : List Nat)
  | notifyError (a : SockAddrIn) (k : ErrorKind)
  | notifyClose (a : SockAddrIn)
deriving DecidableEq

/-- Model of `Server::GetClientAddress` in `src/include/tcp/server.h`: on
`getpeername` failure it returns a zero-initialized `sockaddr_in`. -/
def GetClientAddress (res : Option SockAddrIn) : SockAddrIn :=
  res.getD ⟨0, 0⟩

/-- Model of `Server::Write` in `src/include/tcp/server.h` (identical to
`tcp::Write` in `src/include/tcp/utils.h`): if the buffer is non-empty,
perform one `write` syscall and throw a `Write` error exactly when it
returns `-1`; an empty buffer performs no syscall. -/
def Write (fd : Nat) (outBuf : List Nat) (writeRes : Int) :
    List Event × Option ErrorKind :=
  if outBuf = [] then ([], none)
  else ([.sysWrite fd outBuf.length],
        if writeRes = -1 then some .write else none)

/-- Model of `Server::HandleNewConnection` (`src/include/tcp/server.h`,
lines 229-254): look up the peer address, call `OnNew`, write the response
(on write failure: close, then `OnError`), and close the socket when the
handler returned `keep_alive = false`. -/
def HandleNewConnection (h : HandlerSpec) (fd : Nat) (o : TaskOracle) :
    List Event :=
  let a := GetClientAddress o.peerRes
  let out := h.onNewOut a
  let keep := h.onNewKeep a
  let w := Write fd out o.writeRes
  [.getAddr fd, .callOnNew a] ++ w.1 ++
    match w.2 with
    | some e => [.sysClose fd, .callOnError a e]
    | none => if keep then [] else [.sysClose fd]

/-- Model of `Server::HandleRead` (`src/include/tcp/server.h`,
lines 256-284): look up the peer address, call `OnRead` with the buffer read
by the reactor, write the response (on write failure: close, then
`OnError`), and close the socket when the handler returned
`keep_alive = false`. -/
def HandleRead (h : HandlerSpec) (fd : Nat) (inBuf : List Nat)
    (o : TaskOracle) : List Event :=
  let a := GetClientAddress o.peerRes
  let out := h.onReadOut a inBuf
  let keep := h.onReadKeep a inBuf
  let w := Write fd out o.writeRes
  [.getAddr fd, .callOnRead a inBuf] ++ w.1 ++
    match w.2 with
    | some e => [.sysClose fd, .callOnError a e]
    | none => if keep then [] else [.sysClose fd]

/-- Actions performed when a worker executes one queued task. -/
def taskEvents (h : HandlerSpec) (t : TaskKind) (o : TaskOracle) :
    List Event :=
  match t with
  | .newConn fd => HandleNewConnection h fd o
  | .readConn fd inBuf => HandleRead h fd inBuf o
  | .notifyError a k => [.callOnError a k]
  | .notifyClose a => [.callOnClose a]

/-- One epoll event as reported by `epoll_wait`: whether `EPOLLHUP` is set,
and the descriptor it concerns. -/
structure EpollEv where
  hup : Bool
  fd : Nat
deriving DecidableEq

/-- Model of the body of the event-processing loop in `Server::Run`
(`src/include/tcp/server.h`, lines 150-221) for a single epoll event:
the actions the reactor thread performs directly, and the tasks it pushes
onto the thread pool.  Events with `EPOLLHUP` are skipped.  On the listening
socket: accept (failure: skip), set receive/send timeouts (failure: close and
skip), register in epoll (failure: close and skip), push a
`HandleNewConnection` task.  On a connection socket the reactor itself calls
`read`; on `-1` it closes and pushes an `OnError` task, on `0` it closes and
pushes an `OnClose` task, otherwise it pushes a `HandleRead` task carrying
the zero-initialized buffer of size `bufSize` filled with the bytes read. -/
def processEvent (sfd bufSize : Nat) (ev : EpollEv) (o : EventOracle) :
    List Event × List TaskKind :=
  if ev.hup then ([], [])
  else if ev.fd = sfd then
    match o.acceptRes with
    | none => ([.sysAccept false], [])
    | some cfd =>
      if !o.rcvOk then
        ([.sysAccept true, .sysSetRcvTimeout cfd, .sysClose cfd], [])
      else if !o.sndOk then
        ([.sysAccept true, .sysSetRcvTimeout cfd, .sysSetSndTimeout cfd,
          .sysClose cfd], [])
      else if !o.addOk then
        ([.sysAccept true, .sysSetRcvTimeout cfd, .sysSetSndTimeout cfd,
          .sysEpollAdd cfd, .sysClose cfd], [])
      else
        ([.sysAccept true, .sysSetRcvTimeout cfd, .sysSetSndTimeout cfd,
          .sysEpollAdd cfd], [.newConn cfd])
  else
    match o.readRes with
    | .fail =>
      ([.sysRead ev.fd, .getAddr ev.fd, .sysClose ev.fd],
       [.notifyError (GetClientAddress o.peerRes) .read])
    | .eof =>
      ([.sysRead ev.fd, .getAddr ev.fd, .sysClose ev.fd],
       [.notifyClose (GetClientAddress o.peerRes)])
    | .bytes bs =>
      ([.sysRead ev.fd],
       [.readConn ev.fd (bs ++ List.replicate (bufSize - bs.length) 0)])

/-- Reactor processing of one `epoll_wait` batch, in array order. -/
def processBatch (sfd bufSize : Nat) (ps : List (EpollEv × EventOracle)) :
    List Event × List TaskKind :=
  match ps with
  | [] => ([], [])
  | p :: rest =>
    let r := processEvent sfd bufSize p.1 p.2
    let t := processBatch sfd bufSize rest
    (r.1 ++ t.1, r.2 ++ t.2)

/-- Model of the event loop of `Server::Run` over a list of `epoll_wait`
outcomes: `none` models `epoll_wait` returning `-1`, which throws an
`EpollWait` error out of `Run`; a batch is processed event by event and the
loop continues. -/
def runLoop (sfd bufSize : Nat) :
    List (Option (List (EpollEv × EventOracle))) →
    Except ErrorKind (List Event × List TaskKind)
  | [] => .ok ([], [])
  | none :: _ => .error .epollWait
  | some b :: rest =>
    match runLoop sfd bufSize rest with
    | .error e => .error e
    | .ok t =>
      let r := processBatch sfd bufSize b
      .ok (r.1 ++ t.1, r.2 ++ t.2)

end Tcp

namespace Echo

/-- Model of `std::strlen` applied to a byte buffer: the number of bytes
before the first zero byte.  (The C code only calls it on buffers that do
contain a zero byte; on a zero-free buffer the C call would scan past the
end, while this model returns the full length.) -/
def strlenBytes : List Nat → Nat
  | [] => 0
  | b :: rest => if b = 0 then 0 else strlenBytes rest + 1

/-- Model of `EchoHandler::OnRead` (`src/app/handler.h`, lines 202-212, and
identically `src/echo_handler.h`, lines 265-273): compute
`len = strlen(in_buf.data())`, copy the first `len` bytes of the input into
the output buffer, and return `true`. -/
def OnRead (inBuf : List Nat) : List Nat × Bool :=
  (inBuf.take (strlenBytes inBuf), true)

/-- Model of `EchoHandler::OnNew`: the greeting bytes of
`"Welcome to the echo server!"`, keep-alive `true`. -/
def OnNew : List Nat × Bool :=
  ([87, 101, 108, 99, 111, 109, 101, 32, 116, 111, 32, 116, 104, 101, 32,
    101, 99, 104, 111, 32, 115, 101, 114, 118, 101, 114, 33], true)

end Echo

namespace Tcp

/-- Configuration of the server model: listening descriptor, read buffer
size, and the handler. -/
structure MachineCfg where
  sfd : Nat
  bufSize : Nat
  h : HandlerSpec

/-- State of the whole system: the FIFO task queue of the thread pool, the
remaining actions each worker thread still has to perform for its current
task (`[]` when the worker is idle), and the global interleaved trace of
performed actions. -/
structure SysState where
  queue : List TaskKind
  workers : List (List Event)
  trace : List Event
deriving DecidableEq

/-- A step of the interleaved execution: the reactor processes one epoll
event (its direct syscalls plus the task pushes), an idle worker dequeues the
front task (the pop happens under the queue mutex, so dequeues are
serialized in FIFO order), or a worker performs the next action of the task
it is running (the task body runs outside the lock, so actions of different
workers interleave arbitrarily). -/
inductive MStep
  | reactorEv (ev : EpollEv) (o : EventOracle)
  | dequeueTask (w : Nat) (o : TaskOracle)
  | workAction (w : Nat)

/-- Apply one step to a system state; `none` when the step is not enabled. -/
def stepOk (cfg : MachineCfg) (s : SysState) : MStep → Option SysState
  | .reactorEv ev o =>
    let r := processEvent cfg.sfd cfg.bufSize ev o
    some { queue := s.queue ++ r.2, workers := s.workers,
           trace := s.trace ++ r.1 }
  | .dequeueTask w o =>
    match s.workers.get? w, s.queue with
    | some [], t :: rest =>
      some { queue := rest, workers := s.workers.set w (taskEvents cfg.h t o),
             trace := s.trace }
    | _, _ => none
  | .workAction w =>
    match s.workers.get? w with
    | some (e :: es) =>
      some { queue := s.queue, workers := s.workers.set w es,
             trace := s.trace ++ [e] }
    | _ => none

/-- Run a list of steps from a state; `none` if some step is not enabled. -/
def runSteps (cfg : MachineCfg) : SysState → List MStep → Option SysState
  | s, [] => some s
  | s, st :: rest =>
    match stepOk cfg s st with
    | some s2 => runSteps cfg s2 rest
    | none => none

/-- Initial state: empty queue, `n` idle workers, empty trace. -/
def initState (n : Nat) : SysState :=
  { queue := [], workers := List.replicate n [], trace := [] }

/-- Terminal notifications: `OnClose` and `OnError` callbacks. -/
def isTerminal : Event → Bool
  | .callOnClose _ => true
  | .callOnError _ _ => true
  | _ => false

/-- The terminal notifications contained in a trace. -/
def terminalEvents (tr : List Event) : List Event :=
  tr.filter isTerminal

end Tcp

namespace TcpV0

open Tcp (SockAddrIn ErrorKind Event HandlerSpec ReadRes EpollEv)

/-- Outcomes of the syscalls performed inside
`Server::HandleNewConnection` of `src/server.h`: the `accept` result (new
descriptor and peer address), the two `fcntl` calls of
`MakeSocketNonBlocking`, the `epoll_ctl` add, the `write` result, and the
`epoll_ctl` delete / `close` results used by `CloseConnection`. -/
structure OracleNew where
  acceptRes : Option (Nat × SockAddrIn)
  getflOk : Bool
  setflOk : Bool
  addOk : Bool
  writeRes : Int
  delOk : Bool
  closeOk : Bool

/-- Outcomes of the syscalls performed inside
`Server::HandleConnectionUpdate` of `src/server.h`. -/
structure OracleUpd where
  readRes : ReadRes
  peerRes : Option SockAddrIn
  writeRes : Int
  delOk : Bool
  closeOk : Bool

/-- Model of `Server::CloseConnection` (`src/server.h`, lines 261-271):
remove the descriptor from the epoll instance (throwing `EpollDelete` on
failure), then close it (throwing `Close` on failure). -/
def CloseConnection (fd : Nat) (delOk closeOk : Bool) :
    List Event × Option ErrorKind :=
  if !delOk then ([.sysEpollDel fd], some .epollDelete)
  else if !closeOk then ([.sysEpollDel fd, .sysClose fd], some .close)
  else ([.sysEpollDel fd, .sysClose fd], none)

/-- Sequence of `CloseConnection(fd)` followed by `handler.OnClose(addr)`,
as it appears in the keep-alive-false paths of `src/server.h`; the callback
is skipped when `CloseConnection` throws. -/
def closeThenNotify (pre : List Event) (fd : Nat) (a : SockAddrIn)
    (delOk closeOk : Bool) : List Event × Option ErrorKind :=
  let c := CloseConnection fd delOk closeOk
  match c.2 with
  | some e => (pre ++ c.1, some e)
  | none => (pre ++ c.1 ++ [.callOnClose a], none)

/-- Model of `Server::HandleNewConnection` (`src/server.h`, lines 174-210),
run inside a worker task: accept (throwing `Accept` on failure), make the
socket non-blocking (`fcntl F_GETFL` failure throws `SocketCreation`, a
`-1` from `fcntl F_SETFL` throws `Accept`), register it in the epoll
instance (throwing `EpollAdd` on failure), call `OnNew` with the address
from `accept`, write a non-empty response (throwing `Write` on `-1`), and
on `keep_alive = false` run `CloseConnection` and `OnClose`. -/
def HandleNewConnection (h : HandlerSpec) (o : OracleNew) :
    List Event × Option ErrorKind :=
  match o.acceptRes with
  | none => ([.sysAccept false], some .accept)
  | some (cfd, a) =>
    if !o.getflOk then
      ([.sysAccept true, .sysSetNonBlocking cfd], some .socketCreation)
    else if !o.setflOk then
      ([.sysAccept true, .sysSetNonBlocking cfd], some .accept)
    else if !o.addOk then
      ([.sysAccept true, .sysSetNonBlocking cfd, .sysEpollAdd cfd],
       some .epollAdd)
    else
      let out := h.onNewOut a
      let keep := h.onNewKeep a
      let base := [.sysAccept true, .sysSetNonBlocking cfd, .sysEpollAdd cfd,
                   .callOnNew a]
      if out = [] then
        if keep then (base, none)
        else closeThenNotify base cfd a o.delOk o.closeOk
      else if o.writeRes = -1 then
        (base ++ [.sysWrite cfd out.length], some .write)
      else if keep then
        (base ++ [.sysWrite cfd out.length], none)
      else
        closeThenNotify (base ++ [.sysWrite cfd out.length]) cfd a
          o.delOk o.closeOk

/-- Model of `Server::HandleConnectionUpdate` (`src/server.h`,
lines 212-259), run inside a worker task: read up to `bufSize` bytes
(throwing `Read` on `-1`); on `0` bytes look up the peer address (throwing
`GetAddress` on failure), remove the descriptor from epoll, close it and
call `OnClose`; otherwise call `OnRead` with the buffer, write a non-empty
response (throwing `Write` on `-1`), and on `keep_alive = false` run
`CloseConnection` and `OnClose`. -/
def HandleConnectionUpdate (h : HandlerSpec) (fd bufSize : Nat)
    (o : OracleUpd) : List Event × Option ErrorKind :=
  match o.readRes with
  | .fail => ([.sysRead fd], some .read)
  | .eof =>
    match o.peerRes with
    | none => ([.sysRead fd, .getAddr fd], some .getAddress)
    | some a =>
      if !o.delOk then
        ([.sysRead fd, .getAddr fd, .sysEpollDel fd], some .epollDelete)
      else if !o.closeOk then
        ([.sysRead fd, .getAddr fd, .sysEpollDel fd, .sysClose fd],
         some .close)
      else
        ([.sysRead fd, .getAddr fd, .sysEpollDel fd, .sysClose fd,
          .callOnClose a], none)
  | .bytes bs =>
    match o.peerRes with
    | none => ([.sysRead fd, .getAddr fd], some .getAddress)
    | some a =>
      let inBuf := bs ++ List.replicate (bufSize - bs.length) 0
      let out := h.onReadOut a inBuf
      let keep := h.onReadKeep a inBuf
      let base := [.sysRead fd, .getAddr fd, .callOnRead a inBuf]
      if out = [] then
        if keep then (base, none)
        else closeThenNotify base fd a o.delOk o.closeOk
      else if o.writeRes = -1 then
        (base ++ [.sysWrite fd out.length], some .write)
      else if keep then
        (base ++ [.sysWrite fd out.length], none)
      else
        closeThenNotify (base ++ [.sysWrite fd out.length]) fd a
          o.delOk o.closeOk

/-- Tasks pushed by `Server::Run` of `src/server.h`. -/
inductive Task0
  | newConn
  | connUpdate (fd : Nat)
deriving DecidableEq

/-- Model of the event-processing loop body of `Server::Run`
(`src/server.h`, lines 162-169): the reactor performs no syscall and no
handler call itself; it only pushes one task per epoll event. -/
def dispatchEvent (sfd : Nat) (ev : EpollEv) : List Event × Task0 :=
  if ev.fd = sfd then ([], .newConn) else ([], .connUpdate ev.fd)

end TcpV0

namespace Pool

/-- A queue entry of the thread pool (`src/include/tcp/thread_pool.h`):
`none` is the empty `std::function`, the sentinel stop task; `some t` is a
real task (abstracted by a payload). -/
abbrev QTask := Option Nat

/-- Model of `ThreadPool::push_stop_task`: enqueue exactly one sentinel at
the back of the queue. -/
def pushStopTask (q : List QTask) : List QTask :=
  q ++ [(none : Option Nat)]

/-- Run the worker loops to completion, one FIFO dequeue at a time:
`n` is the number of workers still running.  A worker that dequeues a real
task executes it and loops; a worker that dequeues the sentinel re-enqueues
a fresh sentinel (`push_stop_task`) and returns.  Returns the executed
payloads, the leftover queue, and the number of sentinel dequeues; `none`
models the deadlock where a running worker waits forever on an empty
queue. -/
def runWorkers : Nat → List QTask → Option (List Nat × List QTask × Nat)
  | 0, q => some ([], q, 0)
  | _ + 1, [] => none
  | n + 1, (none : Option Nat) :: q =>
    (runWorkers n (pushStopTask q)).map fun r => (r.1, r.2.1, r.2.2 + 1)
  | n + 1, some t :: q =>
    (runWorkers (n + 1) q).map fun r => (t :: r.1, r.2.1, r.2.2)
termination_by n q => n + q.length
decreasing_by
  all_goals (simp [pushStopTask]; try omega)

/-- Model of `ThreadPool::Stop` (`src/include/tcp/thread_pool.h`,
lines 47-58): push one sentinel, join every worker (run them to
completion), then clear all pending queue entries.  Returns the payloads
executed during shutdown and the final (drained) queue. -/
def Stop (n : Nat) (q : List QTask) : Option (List Nat × List QTask) :=
  (runWorkers n (pushStopTask q)).map fun r => (r.1, [])

end Pool

namespace Tcp

/-- Whether an event is the `sysEpollDel` syscall. -/
def isEpollDel : Event → Bool
  | .sysEpollDel _ => true
  | _ => false

/-- Whether an event is the `sysRead` syscall. -/
def isSysRead : Event → Bool
  | .sysRead _ => true
  | _ => false

/-- Whether an event is the `sysSetNonBlocking` call. -/
def isSetNonBlocking : Event → Bool
  | .sysSetNonBlocking _ => true
  | _ => false

/-- Scan a trace keeping the descriptors already removed from the epoll set;
`true` iff every `close` of a connection descriptor is preceded (earlier in
the trace) by an epoll delete of that same descriptor. -/
def everyCloseAfterDel (deleted : List Nat) : List Event → Bool
  | [] => true
  | .sysClose f :: rest => deleted.contains f && everyCloseAfterDel deleted rest
  | .sysEpollDel f :: rest => everyCloseAfterDel (f :: deleted) rest
  | _ :: rest => everyCloseAfterDel deleted rest

/-- Whether, scanning left to right, an `OnRead` callback occurs strictly
before the first `OnNew` callback. -/
def onReadBeforeOnNew : List Event → Bool
  | [] => false
  | .callOnRead _ _ :: _ => true
  | .callOnNew _ :: _ => false
  | _ :: rest => onReadBeforeOnNew rest

/-- The terminal notifications fired by one executed task. -/
def taskTerminals (h : HandlerSpec) (t : TaskKind) (o : TaskOracle) :
    List Event :=
  terminalEvents (taskEvents h t o)

end Tcp

/-- The echo application handler (`src/app/handler.h`) as a `HandlerSpec`:
`OnNew` returns the greeting and `true`; `OnRead` echoes the bytes before
the first zero byte and returns `true`. -/
def echoHandlerSpec : Tcp.HandlerSpec :=
  { onNewOut := fun _ => Echo.OnNew.1
    onNewKeep := fun _ => Echo.OnNew.2
    onReadOut := fun _ b => (Echo.OnRead b).1
    onReadKeep := fun _ b => (Echo.OnRead b).2 }

/-- A legitimate handler instance that echoes like the application handler
but asks for the connection to be closed after the first read
(`keep_alive = false` from `OnRead`). -/
def closeAfterReadHandler : Tcp.HandlerSpec :=
  { onNewOut := fun _ => Echo.OnNew.1
    onNewKeep := fun _ => true
    onReadOut := fun _ b => (Echo.OnRead b).1
    onReadKeep := fun _ _ => false }

/-- Server configuration used by the concrete executions below: listening
descriptor 3, read buffer size 4. -/
def cexCfg (h : Tcp.HandlerSpec) : Tcp.MachineCfg :=
  { sfd := 3, bufSize := 4, h := h }

/-- Oracle for a successful accept of descriptor 5 with all subsequent
setup syscalls succeeding. -/
def acceptOkOracle : Tcp.EventOracle :=
  { acceptRes := some 5, rcvOk := true, sndOk := true, addOk := true,
    readRes := .eof, peerRes := none }

/-- Oracle for a readiness event on descriptor 5 where `read` returns one
byte `104`. -/
def readByteOracle : Tcp.EventOracle :=
  { acceptRes := none, rcvOk := true, sndOk := true, addOk := true,
    readRes := .bytes [104], peerRes := none }

/-- Worker-task oracle: `getpeername` yields address `⟨7, 9⟩` and `write`
succeeds (returns the number of bytes written, here abstracted as `1`). -/
def writeOkTaskOracle : Tcp.TaskOracle :=
  { peerRes := some ⟨7, 9⟩, writeRes := 1 }

/-- Complete sequential execution refuting C1: a client connects (OnNew,
greeting written, keep-alive), then sends one byte; the handler returns
`keep_alive = false`, the write succeeds, and the worker closes the
connection.  No `OnClose` or `OnError` ever fires for it. -/
def c1steps : List Tcp.MStep :=
  [ .reactorEv ⟨false, 3⟩ acceptOkOracle,
    .dequeueTask 0 writeOkTaskOracle,
    .workAction 0, .workAction 0, .workAction 0,
    .reactorEv ⟨false, 5⟩ readByteOracle,
    .dequeueTask 0 writeOkTaskOracle,
    .workAction 0, .workAction 0, .workAction 0, .workAction 0 ]

/-- Final state of the C1 execution. -/
def c1final : Tcp.SysState :=
  (Tcp.runSteps (cexCfg closeAfterReadHandler) (Tcp.initState 1)
    c1steps).getD (Tcp.initState 1)

/-- Interleaved execution refuting C2: the reactor enqueues the `OnNew` task
and then the read task for the same connection; worker 0 dequeues the
`OnNew` task first (FIFO), worker 1 dequeues the read task, but worker 1
runs its task body first, so `OnRead` is invoked before `OnNew`. -/
def c2steps : List Tcp.MStep :=
  [ .reactorEv ⟨false, 3⟩ acceptOkOracle,
    .reactorEv ⟨false, 5⟩ readByteOracle,
    .dequeueTask 0 writeOkTaskOracle,
    .dequeueTask 1 writeOkTaskOracle,
    .workAction 1, .workAction 1,
    .workAction 0, .workAction 0 ]

/-- Final state of the C2 execution. -/
def c2final : Tcp.SysState :=
  (Tcp.runSteps (cexCfg echoHandlerSpec) (Tcp.initState 2)
    c2steps).getD (Tcp.initState 2)

/-- Oracle for a readiness event on descriptor 5 where the peer has closed
(`read` returns `0`). -/
def eofOracle : Tcp.EventOracle :=
  { acceptRes := none, rcvOk := true, sndOk := true, addOk := true,
    readRes := .eof, peerRes := some ⟨7, 9⟩ }

/-- The input buffer of scenario B: the bytes of `"hello"`, a zero
terminator, and zero padding up to the configured buffer size 1024. -/
def helloBuf : List Nat :=
  [104, 101, 108, 108, 111] ++ 0 :: List.replicate 1018 0

/-- The first `strlen` bytes of a buffer that contains a zero byte are
exactly the bytes before the first zero: they contain no zero, and the
buffer continues with a zero byte right after them. -/
theorem take_strlen_first_zero (l : List Nat) (h : 0 ∈ l) :
    0 ∉ l.take (Echo.strlenBytes l) ∧
    ∃ rest, l = l.take (Echo.strlenBytes l) ++ 0 :: rest := by
  induction l with
  | nil => cases h
  | cons b t ih =>
    by_cases hb : b = 0
    · subst hb
      exact ⟨by simp [Echo.strlenBytes], t, by simp [Echo.strlenBytes]⟩
    · have ht : 0 ∈ t := by
        rcases List.mem_cons.mp h with h0 | h0
        · exact absurd h0.symm hb
        · exact h0
      obtain ⟨hnot, rest, hrest⟩ := ih ht
      have hs : Echo.strlenBytes (b :: t) = Echo.strlenBytes t + 1 := by
        simp [Echo.strlenBytes, hb]
      refine ⟨?_, rest, ?_⟩
      · rw [hs]
        simp only [List.take, List.mem_cons]
        rintro (h0 | h0)
        · exact hb h0.symm
        · exact hnot h0
      · rw [hs]
        simp only [List.take, List.cons_append]
        exact congrArg (b :: ·) hrest

/-- C9: for an input with a zero byte, the echo handler returns keep-alive
`true` and outputs exactly the prefix preceding the first zero byte. -/
theorem c9_echo_first_zero (inBuf : List Nat) (h : 0 ∈ inBuf) :
    (Echo.OnRead inBuf).2 = true ∧
    0 ∉ (Echo.OnRead inBuf).1 ∧
    ∃ rest, inBuf = (Echo.OnRead inBuf).1 ++ 0 :: rest := by
  obtain ⟨h1, h2⟩ := take_strlen_first_zero inBuf h
  exact ⟨rfl, h1, h2⟩

/-- Witness for C9: the scenario B buffer (`"hello"` plus a zero terminator
padded to buffer size 1024) contains a zero byte, the handler keeps the
connection alive and returns the zero-free prefix, and that prefix is
exactly the 5 bytes of `"hello"`. -/
theorem c9_witness :
    0 ∈ helloBuf ∧
    ((Echo.OnRead helloBuf).2 = true ∧
     0 ∉ (Echo.OnRead helloBuf).1 ∧
     ∃ rest, helloBuf = (Echo.OnRead helloBuf).1 ++ 0 :: rest) ∧
    (Echo.OnRead helloBuf).1 = [104, 101, 108, 108, 111] := by
  refine ⟨by decide, c9_echo_first_zero helloBuf (by decide), by decide⟩

/-- C7: the write path throws a `Write`-kind error exactly when the buffer
is non-empty and the `write` syscall returns `-1`; a short write (any other
return value, in particular fewer bytes than requested) is silently treated
as success; an empty buffer performs no syscall and never throws; a
non-empty buffer performs exactly one `write` syscall, with no retry loop. -/
theorem c7_write_error_characterization (fd b : Nat) (outBuf : List Nat)
    (writeRes : Int) :
    (Tcp.Write fd outBuf writeRes).2 =
      (if outBuf ≠ [] ∧ writeRes = -1 then some .write else none) ∧
    Tcp.Write fd [] writeRes = ([], none) ∧
    (Tcp.Write fd (b :: outBuf) writeRes).1 =
      [.sysWrite fd (b :: outBuf).length] := by
  refine ⟨?_, by simp [Tcp.Write], by simp [Tcp.Write]⟩
  by_cases he : outBuf = []
  · simp [Tcp.Write, he]
  · by_cases hw : writeRes = -1 <;> simp [Tcp.Write, he, hw]

/-- C10: an epoll event carrying `EPOLLHUP` is skipped entirely: the loop
body performs no syscall, enqueues no task, and the whole system state
(task queue, workers, trace) is unchanged. -/
theorem c10_hup_skipped (cfg : Tcp.MachineCfg) (s : Tcp.SysState) (fd : Nat)
    (o : Tcp.EventOracle) :
    Tcp.processEvent cfg.sfd cfg.bufSize ⟨true, fd⟩ o = ([], []) ∧
    Tcp.stepOk cfg s (.reactorEv ⟨true, fd⟩ o) = some s := by
  constructor
  · simp [Tcp.processEvent]
  · simp [Tcp.stepOk, Tcp.processEvent]

/-- C6: a failing `epoll_wait` (modelled by `none` in the list of wait
outcomes) makes the run loop terminate with the fatal `EpollWait` error, no
matter how many successful iterations preceded it, while a failing `accept`
only skips the event: the loop processes the remaining events of the batch
normally. -/
theorem c6_wait_fatal_accept_nonfatal (sfd bufSize : Nat)
    (bs : List (List (Tcp.EpollEv × Tcp.EventOracle)))
    (more : List (Option (List (Tcp.EpollEv × Tcp.EventOracle))))
    (rcv snd add : Bool) (rr : Tcp.ReadRes) (pr : Option Tcp.SockAddrIn)
    (rest : List (Tcp.EpollEv × Tcp.EventOracle)) :
    Tcp.runLoop sfd bufSize (bs.map some ++ none :: more) =
      .error .epollWait ∧
    Tcp.processEvent sfd bufSize ⟨false, sfd⟩ ⟨none, rcv, snd, add, rr, pr⟩ =
      ([.sysAccept false], []) ∧
    Tcp.processBatch sfd bufSize
        ((⟨false, sfd⟩, ⟨none, rcv, snd, add, rr, pr⟩) :: rest) =
      (.sysAccept false :: (Tcp.processBatch sfd bufSize rest).1,
       (Tcp.processBatch sfd bufSize rest).2) := by
  refine ⟨?_, by simp [Tcp.processEvent], by simp [Tcp.processBatch, Tcp.processEvent]⟩
  induction bs with
  | nil => rfl
  | cons b t ih => simp [Tcp.runLoop, ih]

/-- Chained-sentinel propagation: if the queue contains a sentinel, running
the workers never blocks, every one of the `n` running workers terminates by
dequeuing a sentinel (exactly `n` sentinel dequeues happen in total), and a
sentinel is still in the leftover queue afterwards. -/
theorem runWorkers_sentinel (n : Nat) (q : List Pool.QTask)
    (h : (none : Pool.QTask) ∈ q) :
    ∃ ex qf, Pool.runWorkers n q = some (ex, qf, n) ∧
      (none : Pool.QTask) ∈ qf := by
  induction n, q using Pool.runWorkers.induct with
  | case1 q => exact ⟨[], q, by simp [Pool.runWorkers], h⟩
  | case2 n => cases h
  | case3 n q ih =>
    have hm : (none : Pool.QTask) ∈ Pool.pushStopTask q := by
      simp [Pool.pushStopTask]
    obtain ⟨ex, qf, hrun, hqf⟩ := ih hm
    exact ⟨ex, qf, by simp [Pool.runWorkers, hrun], hqf⟩
  | case4 n t q ih =>
    have hm : (none : Pool.QTask) ∈ q := by
      rcases List.mem_cons.mp h with h0 | h0
      · cases h0
      · exact h0
    obtain ⟨ex, qf, hrun, hqf⟩ := ih hm
    exact ⟨t :: ex, qf, by simp [Pool.runWorkers, hrun], hqf⟩

/-- C8: `Stop` pushes exactly one sentinel onto the queue; starting from any
queue of real tasks, the chained-sentinel protocol terminates all `n`
workers, each by dequeuing a sentinel (exactly `n` sentinel dequeues, each
preceded by re-enqueuing a fresh one), and `Stop` then drains the leftovers,
returning with an empty queue. -/
theorem c8_pool_shutdown_protocol (n : Nat) (q : List Nat) :
    (Pool.pushStopTask (q.map some)).count (none : Pool.QTask) =
      (q.map some).count (none : Pool.QTask) + 1 ∧
    ∃ ex qf,
      Pool.runWorkers n (Pool.pushStopTask (q.map some)) = some (ex, qf, n) ∧
      Pool.Stop n (q.map some) = some (ex, []) := by
  constructor
  · simp [Pool.pushStopTask]
  · have h : (none : Pool.QTask) ∈ Pool.pushStopTask (q.map some) := by
      simp [Pool.pushStopTask]
    obtain ⟨ex, qf, hrun, _⟩ :=
      runWorkers_sentinel n (Pool.pushStopTask (q.map some)) h
    exact ⟨ex, qf, hrun, by simp [Pool.Stop, hrun]⟩

/-- C1 counterexample: a complete, valid sequential execution in which a
connection is accepted and registered (epoll add of descriptor 5), the
handler is greeted and later returns `keep_alive = false` on its first read,
the response write succeeds, and the worker closes the descriptor — yet the
whole trace contains no `OnClose` and no `OnError` for it: the connection
reached Registered and resolved to no terminal notification at all. -/
theorem c1_counterexample :
    (Tcp.runSteps (cexCfg closeAfterReadHandler) (Tcp.initState 1)
      c1steps).isSome = true ∧
    Tcp.Event.sysEpollAdd 5 ∈ c1final.trace ∧
    Tcp.Event.sysClose 5 ∈ c1final.trace ∧
    c1final.queue = [] ∧
    c1final.workers = [[]] ∧
    Tcp.terminalEvents c1final.trace = [] := by
  refine ⟨by decide, by decide, by decide, by decide, by decide, by decide⟩

/-- C1 amended: a connection fires at most one terminal notification per
readiness event or task, and which one is determined by the failure: a
worker task fires `OnError` exactly when its write fails on a non-empty
response (and never `OnClose`); the reactor enqueues an `OnError` task
exactly when the read fails and an `OnClose` task exactly when the peer has
closed; but when the handler returns `keep_alive = false` and the write
succeeds, the connection is closed with no terminal notification. -/
theorem c1_terminal_notifications_amended (h : Tcp.HandlerSpec)
    (fd sfd bufSize : Nat) (inBuf bs : List Nat) (o : Tcp.TaskOracle)
    (a : Tcp.SockAddrIn) (k : Tcp.ErrorKind) (ar : Option Nat)
    (r1 r2 r3 : Bool) (pr : Option Tcp.SockAddrIn) (hfd : fd ≠ sfd) :
    Tcp.taskTerminals h (.readConn fd inBuf) o =
      (if h.onReadOut (Tcp.GetClientAddress o.peerRes) inBuf ≠ [] ∧
          o.writeRes = -1
       then [.callOnError (Tcp.GetClientAddress o.peerRes) .write]
       else []) ∧
    Tcp.taskTerminals h (.newConn fd) o =
      (if h.onNewOut (Tcp.GetClientAddress o.peerRes) ≠ [] ∧ o.writeRes = -1
       then [.callOnError (Tcp.GetClientAddress o.peerRes) .write]
       else []) ∧
    Tcp.taskTerminals h (.notifyError a k) o = [.callOnError a k] ∧
    Tcp.taskTerminals h (.notifyClose a) o = [.callOnClose a] ∧
    (Tcp.Event.sysClose fd ∈ Tcp.HandleRead h fd inBuf o ↔
      (h.onReadOut (Tcp.GetClientAddress o.peerRes) inBuf ≠ [] ∧
        o.writeRes = -1) ∨
      h.onReadKeep (Tcp.GetClientAddress o.peerRes) inBuf = false) ∧
    (Tcp.processEvent sfd bufSize ⟨false, fd⟩ ⟨ar, r1, r2, r3, .fail, pr⟩).2 =
      [.notifyError (Tcp.GetClientAddress pr) .read] ∧
    (Tcp.processEvent sfd bufSize ⟨false, fd⟩ ⟨ar, r1, r2, r3, .eof, pr⟩).2 =
      [.notifyClose (Tcp.GetClientAddress pr)] ∧
    (Tcp.processEvent sfd bufSize ⟨false, fd⟩
        ⟨ar, r1, r2, r3, .bytes bs, pr⟩).2 =
      [.readConn fd (bs ++ List.replicate (bufSize - bs.length) 0)] := by
  refine ⟨?_, ?_, rfl, rfl, ?_, ?_, ?_, ?_⟩
  · by_cases hout : h.onReadOut (Tcp.GetClientAddress o.peerRes) inBuf = []
    · by_cases hk : h.onReadKeep (Tcp.GetClientAddress o.peerRes) inBuf <;>
        simp [Tcp.taskTerminals, Tcp.taskEvents, Tcp.HandleRead, Tcp.Write,
          Tcp.terminalEvents, Tcp.isTerminal, hout, hk]
    · by_cases hw : o.writeRes = -1 <;>
        by_cases hk : h.onReadKeep (Tcp.GetClientAddress o.peerRes) inBuf <;>
        simp [Tcp.taskTerminals, Tcp.taskEvents, Tcp.HandleRead, Tcp.Write,
          Tcp.terminalEvents, Tcp.isTerminal, hout, hw, hk]
  · by_cases hout : h.onNewOut (Tcp.GetClientAddress o.peerRes) = []
    · by_cases hk : h.onNewKeep (Tcp.GetClientAddress o.peerRes) <;>
        simp [Tcp.taskTerminals, Tcp.taskEvents, Tcp.HandleNewConnection,
          Tcp.Write, Tcp.terminalEvents, Tcp.isTerminal, hout, hk]
    · by_cases hw : o.writeRes = -1 <;>
        by_cases hk : h.onNewKeep (Tcp.GetClientAddress o.peerRes) <;>
        simp [Tcp.taskTerminals, Tcp.taskEvents, Tcp.HandleNewConnection,
          Tcp.Write, Tcp.terminalEvents, Tcp.isTerminal, hout, hw, hk]
  · by_cases hout : h.onReadOut (Tcp.GetClientAddress o.peerRes) inBuf = []
    · by_cases hk : h.onReadKeep (Tcp.GetClientAddress o.peerRes) inBuf <;>
        simp [Tcp.HandleRead, Tcp.Write, hout, hk]
    · by_cases hw : o.writeRes = -1 <;>
        by_cases hk : h.onReadKeep (Tcp.GetClientAddress o.peerRes) inBuf <;>
        simp [Tcp.HandleRead, Tcp.Write, hout, hw, hk]
  · simp [Tcp.processEvent, hfd]
  · simp [Tcp.processEvent, hfd]
  · simp [Tcp.processEvent, hfd]

/-- Witness for C1 amended: with the echo-like handler that requests closure
after the first read and a successful write, the read task fires no terminal
notification even though it closes descriptor 5. -/
theorem c1_witness :
    (5 : Nat) ≠ 3 ∧
    Tcp.taskTerminals closeAfterReadHandler (.readConn 5 [104, 0, 0, 0])
      writeOkTaskOracle = [] ∧
    Tcp.Event.sysClose 5 ∈
      Tcp.HandleRead closeAfterReadHandler 5 [104, 0, 0, 0]
        writeOkTaskOracle := by
  have h := c1_terminal_notifications_amended closeAfterReadHandler 5 3 4
    [104, 0, 0, 0] [104] writeOkTaskOracle ⟨7, 9⟩ .read none true true true
    (some ⟨7, 9⟩) (by decide)
  refine ⟨by decide, ?_, ?_⟩
  · rw [h.1, if_neg (by decide)]
  · exact (h.2.2.2.2.1).mpr (Or.inr (by decide))

/-- Every `newConn` task pushed while processing an epoll event comes from a
successful `accept` returning that descriptor. -/
theorem newConn_task_from_accept (sfd bufSize c : Nat) (ev : Tcp.EpollEv)
    (o : Tcp.EventOracle)
    (hm : Tcp.TaskKind.newConn c ∈ (Tcp.processEvent sfd bufSize ev o).2) :
    o.acceptRes = some c := by
  unfold Tcp.processEvent at hm
  by_cases h1 : ev.hup
  · simp [h1] at hm
  · by_cases h2 : ev.fd = sfd
    · cases har : o.acceptRes with
      | none => simp [h1, h2, har] at hm
      | some cfd =>
        by_cases hr : o.rcvOk <;> by_cases hs : o.sndOk <;>
          by_cases ha : o.addOk <;> simp [h1, h2, har, hr, hs, ha] at hm
        simp [hm]
    · cases hrr : o.readRes <;> simp [h1, h2, hrr] at hm

/-- Every `readConn` task pushed while processing an epoll event concerns
the descriptor that the event reported ready. -/
theorem readConn_task_from_event (sfd bufSize c : Nat) (b : List Nat)
    (ev : Tcp.EpollEv) (o : Tcp.EventOracle)
    (hm : Tcp.TaskKind.readConn c b ∈ (Tcp.processEvent sfd bufSize ev o).2) :
    ev.fd = c := by
  unfold Tcp.processEvent at hm
  by_cases h1 : ev.hup
  · simp [h1] at hm
  · by_cases h2 : ev.fd = sfd
    · cases har : o.acceptRes with
      | none => simp [h1, h2, har] at hm
      | some cfd =>
        by_cases hr : o.rcvOk <;> by_cases hs : o.sndOk <;>
          by_cases ha : o.addOk <;> simp [h1, h2, har, hr, hs, ha] at hm
    · cases hrr : o.readRes <;> simp [h1, h2, hrr] at hm
      exact hm.1.symm

/-- Batch processing distributes over concatenation of event lists. -/
theorem processBatch_append (sfd bufSize : Nat)
    (ps1 ps2 : List (Tcp.EpollEv × Tcp.EventOracle)) :
    Tcp.processBatch sfd bufSize (ps1 ++ ps2) =
      ((Tcp.processBatch sfd bufSize ps1).1 ++
        (Tcp.processBatch sfd bufSize ps2).1,
       (Tcp.processBatch sfd bufSize ps1).2 ++
        (Tcp.processBatch sfd bufSize ps2).2) := by
  induction ps1 with
  | nil => simp [Tcp.processBatch]
  | cons p rest ih => simp [Tcp.processBatch, ih]

/-- Every task of a processed batch comes from one of the batch's events. -/
theorem batch_task_mem (sfd bufSize : Nat)
    (ps : List (Tcp.EpollEv × Tcp.EventOracle)) (t : Tcp.TaskKind)
    (hm : t ∈ (Tcp.processBatch sfd bufSize ps).2) :
    ∃ p ∈ ps, t ∈ (Tcp.processEvent sfd bufSize p.1 p.2).2 := by
  induction ps with
  | nil => simp [Tcp.processBatch] at hm
  | cons p rest ih =>
    simp only [Tcp.processBatch, List.mem_append] at hm
    rcases hm with hm | hm
    · exact ⟨p, List.mem_cons_self p rest, hm⟩
    · obtain ⟨q, hq, hqt⟩ := ih hm
      exact ⟨q, List.mem_cons_of_mem p hq, hqt⟩

/-- C2 counterexample: a valid interleaved execution in which the reactor
enqueues the `OnNew` task for connection 5 strictly before the read task
(FIFO dequeue order is respected: worker 0 takes the `OnNew` task first),
but worker 1 executes its task body first, so the `OnRead` callback for the
connection is invoked strictly before its `OnNew` callback. -/
theorem c2_counterexample :
    (Tcp.runSteps (cexCfg echoHandlerSpec) (Tcp.initState 2)
      c2steps).isSome = true ∧
    Tcp.Event.callOnNew ⟨7, 9⟩ ∈ c2final.trace ∧
    Tcp.Event.callOnRead ⟨7, 9⟩ [104, 0, 0, 0] ∈ c2final.trace ∧
    Tcp.onReadBeforeOnNew c2final.trace = true := by
  refine ⟨by decide, by decide, by decide, by decide⟩

/-- C2 amended: the task that invokes `OnNew` for an accepted connection is
enqueued exactly once, strictly before any task that invokes `OnRead` for
that connection (the events preceding the accept concern other descriptors,
and no other event accepts the same descriptor); the invocations themselves
may still be reordered by concurrently executing workers. -/
theorem c2_onnew_enqueue_order_amended (sfd bufSize cfd : Nat)
    (ps1 ps2 : List (Tcp.EpollEv × Tcp.EventOracle)) (rr : Tcp.ReadRes)
    (pr : Option Tcp.SockAddrIn) (b : List Nat) (t : Tcp.TaskKind)
    (h1 : ∀ p ∈ ps1, p.1.fd ≠ cfd ∧ p.2.acceptRes ≠ some cfd)
    (h2 : ∀ p ∈ ps2, p.2.acceptRes ≠ some cfd)
    (ht : t ∈ (Tcp.processBatch sfd bufSize ps1).2 ++
      (Tcp.processBatch sfd bufSize ps2).2) :
    (Tcp.processBatch sfd bufSize
        (ps1 ++ (⟨false, sfd⟩, ⟨some cfd, true, true, true, rr, pr⟩) ::
          ps2)).2 =
      (Tcp.processBatch sfd bufSize ps1).2 ++
        .newConn cfd :: (Tcp.processBatch sfd bufSize ps2).2 ∧
    Tcp.TaskKind.readConn cfd b ∉ (Tcp.processBatch sfd bufSize ps1).2 ∧
    t ≠ .newConn cfd := by
  refine ⟨?_, ?_, ?_⟩
  · rw [processBatch_append]
    simp [Tcp.processBatch, Tcp.processEvent]
  · intro hmem
    obtain ⟨p, hp, hpt⟩ := batch_task_mem sfd bufSize ps1 _ hmem
    exact (h1 p hp).1 (readConn_task_from_event sfd bufSize cfd b p.1 p.2 hpt)
  · intro hEq
    subst hEq
    rcases List.mem_append.mp ht with hm | hm
    · obtain ⟨p, hp, hpt⟩ := batch_task_mem sfd bufSize ps1 _ hm
      exact (h1 p hp).2 (newConn_task_from_accept sfd bufSize cfd p.1 p.2 hpt)
    · obtain ⟨p, hp, hpt⟩ := batch_task_mem sfd bufSize ps2 _ hm
      exact h2 p hp (newConn_task_from_accept sfd bufSize cfd p.1 p.2 hpt)

/-- Witness for C2 amended: one accept event followed by one data event for
descriptor 5: the batch's task list is the `OnNew` task followed by the read
task, the prefix contains no read task for the connection, and the read task
present in the suffix is not the `OnNew` task. -/
theorem c2_witness :
    (∀ p ∈ ([] : List (Tcp.EpollEv × Tcp.EventOracle)),
      p.1.fd ≠ 5 ∧ p.2.acceptRes ≠ some 5) ∧
    (∀ p ∈ [((⟨false, 5⟩ : Tcp.EpollEv), readByteOracle)],
      p.2.acceptRes ≠ some 5) ∧
    Tcp.TaskKind.readConn 5 [104, 0, 0, 0] ∈
      (Tcp.processBatch 3 4 ([] : List (Tcp.EpollEv × Tcp.EventOracle))).2 ++
      (Tcp.processBatch 3 4 [((⟨false, 5⟩ : Tcp.EpollEv), readByteOracle)]).2 ∧
    ((Tcp.processBatch 3 4
        (([] : List (Tcp.EpollEv × Tcp.EventOracle)) ++
          (⟨false, 3⟩, ⟨some 5, true, true, true, .eof, none⟩) ::
            [((⟨false, 5⟩ : Tcp.EpollEv), readByteOracle)])).2 =
      (Tcp.processBatch 3 4 ([] : List (Tcp.EpollEv × Tcp.EventOracle))).2 ++
        .newConn 5 ::
          (Tcp.processBatch 3 4
            [((⟨false, 5⟩ : Tcp.EpollEv), readByteOracle)]).2 ∧
     Tcp.TaskKind.readConn 5 [104, 0, 0, 0] ∉
       (Tcp.processBatch 3 4 ([] : List (Tcp.EpollEv × Tcp.EventOracle))).2 ∧
     Tcp.TaskKind.readConn 5 [104, 0, 0, 0] ≠ .newConn 5) := by
  refine ⟨by decide, by decide, by decide,
    c2_onnew_enqueue_order_amended 3 4 5 [] _ .eof none [104, 0, 0, 0] _
      (by decide) (by decide) (by decide)⟩

/-- C3 counterexample: a successful accept in the event loop of
`src/include/tcp/server.h` registers descriptor 5 and enqueues its `OnNew`
task, but no call sets the socket non-blocking anywhere on that path — the
connection reaches Registered without the non-blocking flag. -/
theorem c3_counterexample :
    (Tcp.processEvent 3 4 ⟨false, 3⟩ acceptOkOracle).2 = [.newConn 5] ∧
    Tcp.Event.sysEpollAdd 5 ∈
      (Tcp.processEvent 3 4 ⟨false, 3⟩ acceptOkOracle).1 ∧
    (Tcp.processEvent 3 4 ⟨false, 3⟩ acceptOkOracle).1.all
      (fun e => !Tcp.isSetNonBlocking e) = true := by
  refine ⟨by decide, by decide, by decide⟩

/-- C3 amended: in the event-loop variant, every successful accept gives the
new socket receive and send timeouts (not the non-blocking flag) and
registers it for readable interest before the `OnNew` task is enqueued; in
the `src/server.h` variant, accept runs inside the worker task, which sets
the socket non-blocking and registers it before invoking `OnNew` inline. -/
theorem c3_accept_setup_order_amended (sfd bufSize cfd : Nat)
    (rr : Tcp.ReadRes) (pr : Option Tcp.SockAddrIn) (h : Tcp.HandlerSpec)
    (a : Tcp.SockAddrIn) (w : Int) (d c : Bool) :
    Tcp.processEvent sfd bufSize ⟨false, sfd⟩
        ⟨some cfd, true, true, true, rr, pr⟩ =
      ([.sysAccept true, .sysSetRcvTimeout cfd, .sysSetSndTimeout cfd,
        .sysEpollAdd cfd], [.newConn cfd]) ∧
    (Tcp.processEvent sfd bufSize ⟨false, sfd⟩
        ⟨some cfd, true, true, true, rr, pr⟩).1.all
      (fun e => !Tcp.isSetNonBlocking e) = true ∧
    (TcpV0.HandleNewConnection h
        ⟨some (cfd, a), true, true, true, w, d, c⟩).1.take 4 =
      [.sysAccept true, .sysSetNonBlocking cfd, .sysEpollAdd cfd,
       .callOnNew a] := by
  refine ⟨by simp [Tcp.processEvent], by simp [Tcp.processEvent, Tcp.isSetNonBlocking], ?_⟩
  by_cases hout : h.onNewOut a = [] <;>
    by_cases hk : h.onNewKeep a <;>
    by_cases hw : w = -1 <;>
    by_cases hd : d <;>
    by_cases hc : c <;>
    simp [TcpV0.HandleNewConnection, TcpV0.closeThenNotify,
      TcpV0.CloseConnection, hout, hk, hw, hd, hc]

/-- C4 counterexample: in `src/include/tcp/server.h`, when the peer closes
(read returns `0`) the reactor closes descriptor 5 without any preceding
epoll delete — the close is not preceded by explicit removal from the
readiness registry, relying on the OS to drop the entry. -/
theorem c4_counterexample :
    (Tcp.processEvent 3 4 ⟨false, 5⟩ eofOracle).1 =
      [.sysRead 5, .getAddr 5, .sysClose 5] ∧
    Tcp.everyCloseAfterDel []
      (Tcp.processEvent 3 4 ⟨false, 5⟩ eofOracle).1 = false := by
  refine ⟨by decide, by decide⟩

/-- C4 amended: only the `src/server.h` variant removes a descriptor from
the epoll instance before closing it (in `CloseConnection` and in the
peer-closed path of `HandleConnectionUpdate`); the
`src/include/tcp/server.h` variant performs no epoll delete at all, in the
event loop or in any worker task, relying on the OS dropping a closed
descriptor from the interest set. -/
theorem c4_close_deregistration_amended (fd bufSize sfd : Nat) (d c : Bool)
    (h : Tcp.HandlerSpec) (oN : TcpV0.OracleNew) (oU : TcpV0.OracleUpd)
    (ev : Tcp.EpollEv) (o : Tcp.EventOracle) (t : Tcp.TaskKind)
    (o2 : Tcp.TaskOracle) :
    Tcp.everyCloseAfterDel [] (TcpV0.CloseConnection fd d c).1 = true ∧
    Tcp.everyCloseAfterDel [] (TcpV0.HandleNewConnection h oN).1 = true ∧
    Tcp.everyCloseAfterDel []
      (TcpV0.HandleConnectionUpdate h fd bufSize oU).1 = true ∧
    (Tcp.processEvent sfd bufSize ev o).1.all
      (fun e => !Tcp.isEpollDel e) = true ∧
    (Tcp.taskEvents h t o2).all (fun e => !Tcp.isEpollDel e) = true := by
  refine ⟨?_, ?_, ?_, ?_, ?_⟩
  · by_cases hd : d <;> by_cases hc : c <;>
      simp [TcpV0.CloseConnection, Tcp.everyCloseAfterDel, hd, hc]
  · rcases oN with ⟨ar, g1, g2, ad, w, dd, cc⟩
    cases ar with
    | none => simp [TcpV0.HandleNewConnection, Tcp.everyCloseAfterDel]
    | some p =>
      by_cases hg1 : g1 <;> by_cases hg2 : g2 <;> by_cases had : ad <;>
        by_cases hout : h.onNewOut p.2 = [] <;>
        by_cases hk : h.onNewKeep p.2 <;>
        by_cases hw : w = -1 <;>
        by_cases hd : dd <;> by_cases hc : cc <;>
        simp [TcpV0.HandleNewConnection, TcpV0.closeThenNotify,
          TcpV0.CloseConnection, Tcp.everyCloseAfterDel,
          hg1, hg2, had, hout, hk, hw, hd, hc]
  · rcases oU with ⟨rr, prr, w, dd, cc⟩
    cases rr with
    | fail => simp [TcpV0.HandleConnectionUpdate, Tcp.everyCloseAfterDel]
    | eof =>
      cases prr with
      | none => simp [TcpV0.HandleConnectionUpdate, Tcp.everyCloseAfterDel]
      | some a =>
        by_cases hd : dd <;> by_cases hc : cc <;>
          simp [TcpV0.HandleConnectionUpdate, Tcp.everyCloseAfterDel, hd, hc]
    | bytes bs =>
      cases prr with
      | none => simp [TcpV0.HandleConnectionUpdate, Tcp.everyCloseAfterDel]
      | some a =>
        by_cases hout :
            h.onReadOut a (bs ++ List.replicate (bufSize - bs.length) 0)
              = [] <;>
          by_cases hk :
            h.onReadKeep a (bs ++ List.replicate (bufSize - bs.length) 0) <;>
          by_cases hw : w = -1 <;>
          by_cases hd : dd <;> by_cases hc : cc <;>
          simp [TcpV0.HandleConnectionUpdate, TcpV0.closeThenNotify,
            TcpV0.CloseConnection, Tcp.everyCloseAfterDel,
            hout, hk, hw, hd, hc]
  · rcases o with ⟨ar, r1, r2, r3, rr, prr⟩
    by_cases h1 : ev.hup
    · simp [Tcp.processEvent, h1]
    · by_cases h2 : ev.fd = sfd
      · cases ar with
        | none => simp [Tcp.processEvent, Tcp.isEpollDel, h1, h2]
        | some cfd =>
          by_cases hr : r1 <;> by_cases hs : r2 <;> by_cases ha : r3 <;>
            simp [Tcp.processEvent, Tcp.isEpollDel, h1, h2, hr, hs, ha]
      · cases rr <;> simp [Tcp.processEvent, Tcp.isEpollDel, h1, h2]
  · cases t with
    | newConn fd2 =>
      by_cases hout : h.onNewOut (Tcp.GetClientAddress o2.peerRes) = [] <;>
        by_cases hk : h.onNewKeep (Tcp.GetClientAddress o2.peerRes) <;>
        by_cases hw : o2.writeRes = -1 <;>
        simp [Tcp.taskEvents, Tcp.HandleNewConnection, Tcp.Write,
          Tcp.isEpollDel, hout, hk, hw]
    | readConn fd2 b =>
      by_cases hout :
          h.onReadOut (Tcp.GetClientAddress o2.peerRes) b = [] <;>
        by_cases hk : h.onReadKeep (Tcp.GetClientAddress o2.peerRes) b <;>
        by_cases hw : o2.writeRes = -1 <;>
        simp [Tcp.taskEvents, Tcp.HandleRead, Tcp.Write, Tcp.isEpollDel,
          hout, hk, hw]
    | notifyError a k => simp [Tcp.taskEvents, Tcp.isEpollDel]
    | notifyClose a => simp [Tcp.taskEvents, Tcp.isEpollDel]

/-- C5 counterexample: for a readiness event on connection 5 with data
available, the reactor itself performs the `read` syscall; the worker task
it enqueues invokes the handler but performs no read syscall at all. -/
theorem c5_counterexample :
    (Tcp.processEvent 3 4 ⟨false, 5⟩ readByteOracle).1 = [.sysRead 5] ∧
    (Tcp.processEvent 3 4 ⟨false, 5⟩ readByteOracle).2 =
      [.readConn 5 [104, 0, 0, 0]] ∧
    (Tcp.taskEvents echoHandlerSpec (.readConn 5 [104, 0, 0, 0])
      writeOkTaskOracle).all (fun e => !Tcp.isSysRead e) = true ∧
    Tcp.Event.callOnRead ⟨7, 9⟩ [104, 0, 0, 0] ∈
      Tcp.taskEvents echoHandlerSpec (.readConn 5 [104, 0, 0, 0])
        writeOkTaskOracle := by
  refine ⟨by decide, by decide, by decide, by decide⟩

/-- C5 amended: in the event-loop variant the reactor performs the read
syscall itself for every connection-socket readiness event and only the
handler invocation and response write run inside the worker task (which
performs no read); in the `src/server.h` variant the reactor performs no
syscall at all and both accept and read happen inside worker tasks, the read
being the task's first action. -/
theorem c5_read_location_amended (sfd bufSize fd : Nat) (bs inBuf : List Nat)
    (ar : Option Nat) (r1 r2 r3 : Bool) (pr : Option Tcp.SockAddrIn)
    (h : Tcp.HandlerSpec) (o : Tcp.TaskOracle) (oU : TcpV0.OracleUpd)
    (ev : Tcp.EpollEv) (hfd : fd ≠ sfd) :
    Tcp.processEvent sfd bufSize ⟨false, fd⟩ ⟨ar, r1, r2, r3, .bytes bs, pr⟩ =
      ([.sysRead fd],
       [.readConn fd (bs ++ List.replicate (bufSize - bs.length) 0)]) ∧
    Tcp.Event.callOnRead (Tcp.GetClientAddress o.peerRes) inBuf ∈
      Tcp.HandleRead h fd inBuf o ∧
    (Tcp.HandleRead h fd inBuf o).all (fun e => !Tcp.isSysRead e) = true ∧
    (TcpV0.dispatchEvent sfd ev).1 = [] ∧
    (TcpV0.HandleConnectionUpdate h fd bufSize oU).1.head? =
      some (.sysRead fd) := by
  refine ⟨by simp [Tcp.processEvent, hfd], by simp [Tcp.HandleRead], ?_, ?_, ?_⟩
  · by_cases hout : h.onReadOut (Tcp.GetClientAddress o.peerRes) inBuf = [] <;>
      by_cases hk : h.onReadKeep (Tcp.GetClientAddress o.peerRes) inBuf <;>
      by_cases hw : o.writeRes = -1 <;>
      simp [Tcp.HandleRead, Tcp.Write, Tcp.isSysRead, hout, hk, hw]
  · unfold TcpV0.dispatchEvent
    split <;> rfl
  · rcases oU with ⟨rr, prr, w, dd, cc⟩
    cases rr with
    | fail => simp [TcpV0.HandleConnectionUpdate]
    | eof =>
      cases prr with
      | none => simp [TcpV0.HandleConnectionUpdate]
      | some a =>
        by_cases hd : dd <;> by_cases hc : cc <;>
          simp [TcpV0.HandleConnectionUpdate, hd, hc]
    | bytes bs2 =>
      cases prr with
      | none => simp [TcpV0.HandleConnectionUpdate]
      | some a =>
        by_cases hout :
            h.onReadOut a (bs2 ++ List.replicate (bufSize - bs2.length) 0)
              = [] <;>
          by_cases hk :
            h.onReadKeep a
              (bs2 ++ List.replicate (bufSize - bs2.length) 0) <;>
          by_cases hw : w = -1 <;>
          by_cases hd : dd <;> by_cases hc : cc <;>
          simp [TcpV0.HandleConnectionUpdate, TcpV0.closeThenNotify,
            TcpV0.CloseConnection, hout, hk, hw, hd, hc]

/-- Witness for C5 amended: descriptor 5 differs from the listening
descriptor 3; on its data event the reactor performs the read and enqueues
the handler task, and in the `src/server.h` variant the worker task's first
action is the read syscall. -/
theorem c5_witness :
    (5 : Nat) ≠ 3 ∧
    Tcp.processEvent 3 4 ⟨false, 5⟩
        ⟨none, true, true, true, .bytes [104], none⟩ =
      ([.sysRead 5],
       [.readConn 5 ([104] ++ List.replicate (4 - [104].length) 0)]) ∧
    (TcpV0.HandleConnectionUpdate echoHandlerSpec 5 4
        ⟨.bytes [104], some ⟨7, 9⟩, 1, true, true⟩).1.head? =
      some (.sysRead 5) := by
  have h := c5_read_location_amended 3 4 5 [104] [104, 0, 0, 0] none true true
    true none echoHandlerSpec writeOkTaskOracle
    ⟨.bytes [104], some ⟨7, 9⟩, 1, true, true⟩ ⟨false, 5⟩ (by decide)
  exact ⟨by decide, h.1, h.2.2.2.2⟩
